import Mathlib

/-!
# Verification of the SwiftStorage reconciler (swift-operator)

A shallow embedding of `controllers/swiftstorage_controller.go`.  The pure
resource generators (`getStorageService`, `getStorageNetworkPolicy`,
`getStorageContainers`, `getStorageStatefulSet`, `getDeviceList`) are
translated directly as Lean functions.  The stateful `Reconcile` loop is
translated as a function from an explicit platform state (`World`) to a
result, a successor state, and an ordered trace of the create/update effects
it performed; each phase of the Go control flow (early returns included)
appears in the same order as in the source.

Fields of the Kubernetes objects that no verified property mentions
(security contexts, volume mounts, image pull policies, protocol strings on
container ports, timestamps inside conditions) are not carried in the
embedding; everything the theorems below talk about is translated from the
source.  Constants that live in the repository's `pkg/swift` package (port
numbers, claim-name constant, label sets) are modelled from the spec where
marked.
-/

namespace SwiftOp

/-- Modelled from the spec: the fixed port table of `pkg/swift` (account,
container and object server ports, the rsync port, the cache port).  The
rsync value 873 and the memcached value 11211 are evidenced in the source
(the pod sysctl `net.ipv4.ip_unprivileged_port_start=873` and the command
`/usr/bin/memcached -p 11211`); the three server ports use the upstream
defaults.  The theorems below depend only on the five ports being distinct
named constants. -/
def AccountServerPort : Int := 6202

/-- Modelled from the spec: container server port of the fixed port table. -/
def ContainerServerPort : Int := 6201

/-- Modelled from the spec: object server port of the fixed port table. -/
def ObjectServerPort : Int := 6200

/-- Rsync port; the value 873 is evidenced by the pod sysctl in
`getStorageStatefulSet`. -/
def RsyncPort : Int := 873

/-- Memcached (cache) port; the value 11211 is evidenced by the memcached
container command in `getStorageContainers`. -/
def MemcachedPort : Int := 11211

/-- Modelled from the spec: `swift.ClaimName`, the claim-prefix constant of
`pkg/swift` used both as the volume-claim-template name and as the prefix of
per-replica claim names `{claim-prefix}-{name}-{i}`. -/
def ClaimName : String := "srv"

/-- Modelled from the spec: the fixed label set returned by
`swift.GetLabelsStorage`, a pure constant selecting storage-role pods. -/
def storageLabels : List (String × String) :=
  [("app.kubernetes.io/component", "swift-storage")]

/-- Modelled from the spec: the fixed label set returned by
`swift.GetLabelsProxy`, a pure constant selecting proxy-role pods. -/
def proxyLabels : List (String × String) :=
  [("app.kubernetes.io/component", "swift-proxy")]

/-- `condition.ReadyCondition` of lib-common. -/
def ReadyCondition : String := "Ready"

/-- `swiftv1beta1.SwiftStorageReadyCondition`. -/
def SwiftStorageReadyCondition : String := "SwiftStorageReady"

/-- Status of one condition entry (lib-common corev1.ConditionStatus). -/
inductive CondStatus
  | unknown
  | condTrue
  | condFalse
deriving DecidableEq, Repr

/-- One entry of `condition.Conditions`: a typed status entry. -/
structure Condition where
  condType : String
  status : CondStatus
deriving DecidableEq, Repr

/-- `SwiftStorageSpec` (api/v1beta1): the fields of the DesiredState used by
this controller.  `replicas` is a Go `int32`, modelled as `Int`. -/
structure SwiftStorageSpec where
  replicas : Int
  containerImageAccount : String
  containerImageContainer : String
  containerImageObject : String
  containerImageProxy : String
  containerImageMemcached : String
  swiftConfSecret : String
  storageClass : String
  storageRequest : String
deriving DecidableEq, Repr

/-- The SwiftStorage custom resource as the reconciler sees it: identity,
spec, status conditions (`none` models the Go `nil` conditions slice), and
whether `DeletionTimestamp.IsZero()` holds. -/
structure SwiftStorage where
  name : String
  ns : String
  spec : SwiftStorageSpec
  conditions : Option (List Condition)
  deletionTimestampIsZero : Bool
deriving DecidableEq, Repr

/-- The live StatefulSet as read back from the platform: its configured
`Spec.Replicas` and its observed `Status.ReadyReplicas`. -/
structure StatefulSetObj where
  specReplicas : Int
  readyReplicas : Int
deriving DecidableEq, Repr

/-- A PersistentVolumeClaim as read from the platform.  `capacityBytes` is
`Status.Capacity["storage"]` converted with `AsInt64`; `none` models a claim
that exists but reports no bound storage capacity (an unbound claim), for
which the Go map access yields the zero quantity. -/
structure Pvc where
  name : String
  capacityBytes : Option Nat
deriving DecidableEq, Repr

/-- One port of a generated Service. -/
structure ServicePort where
  portName : String
  port : Int
  protocol : String
deriving DecidableEq, Repr

/-- The generated headless Service (`getStorageService`). -/
structure Service where
  name : String
  ns : String
  labels : List (String × String)
  selector : List (String × String)
  ports : List ServicePort
  clusterIP : String
deriving DecidableEq, Repr

/-- One ingress rule of a generated NetworkPolicy: the allowed ports and the
pod-selector labels of the allowed peers. -/
structure IngressRule where
  ports : List Int
  fromPodSelector : List (String × String)
deriving DecidableEq, Repr

/-- The generated NetworkPolicy (`getStorageNetworkPolicy`). -/
structure NetworkPolicy where
  name : String
  ns : String
  podSelector : List (String × String)
  ingress : List IngressRule
deriving DecidableEq, Repr

/-- One container of the generated pod template. -/
structure Container where
  contName : String
  image : String
  ports : List (Int × String)
  command : List String
deriving DecidableEq, Repr

/-- The generated StatefulSet specification (`getStorageStatefulSet`): the
fields the verified properties mention. -/
structure StatefulSetSpec where
  name : String
  ns : String
  serviceName : String
  replicas : Int
  containers : List Container
deriving DecidableEq, Repr

/-- `getPorts`: a single named container port. -/
def getPorts (port : Int) (name : String) : List (Int × String) :=
  [(port, name)]

/-- `getStorageService`: the headless Service exposing the account,
container, object and rsync ports, selected by the storage labels. -/
def getStorageService (swiftstorage : SwiftStorage) : Service :=
  { name := swiftstorage.name
    ns := swiftstorage.ns
    labels := storageLabels
    selector := storageLabels
    ports :=
      [ { portName := "account", port := AccountServerPort, protocol := "TCP" },
        { portName := "container", port := ContainerServerPort, protocol := "TCP" },
        { portName := "object", port := ObjectServerPort, protocol := "TCP" },
        { portName := "rsync", port := RsyncPort, protocol := "TCP" } ]
    clusterIP := "None" }

/-- `getStorageNetworkPolicy`: pod selector is the storage label set; one
ingress rule allowing the four storage ports from storage-labelled pods, one
allowing the three server ports (no rsync) from proxy-labelled pods. -/
def getStorageNetworkPolicy (swiftstorage : SwiftStorage) : NetworkPolicy :=
  { name := "np-" ++ swiftstorage.name
    ns := swiftstorage.ns
    podSelector := storageLabels
    ingress :=
      [ { ports := [AccountServerPort, ContainerServerPort, ObjectServerPort, RsyncPort]
          fromPodSelector := storageLabels },
        { ports := [AccountServerPort, ContainerServerPort, ObjectServerPort]
          fromPodSelector := proxyLabels } ] }

/-- `getStorageContainers`: the fixed ordered container list of the workload
pod template. -/
def getStorageContainers (swiftstorage : SwiftStorage) : List Container :=
  [ { contName := "account-server"
      image := swiftstorage.spec.containerImageAccount
      ports := getPorts AccountServerPort "account"
      command := ["/usr/bin/swift-account-server", "/etc/swift/account-server.conf", "-v"] },
    { contName := "account-replicator"
      image := swiftstorage.spec.containerImageAccount
      ports := []
      command := ["/usr/bin/swift-account-replicator", "/etc/swift/account-server.conf", "-v"] },
    { contName := "account-auditor"
      image := swiftstorage.spec.containerImageAccount
      ports := []
      command := ["/usr/bin/swift-account-auditor", "/etc/swift/account-server.conf", "-v"] },
    { contName := "account-reaper"
      image := swiftstorage.spec.containerImageAccount
      ports := []
      command := ["/usr/bin/swift-account-reaper", "/etc/swift/account-server.conf", "-v"] },
    { contName := "container-server"
      image := swiftstorage.spec.containerImageContainer
      ports := getPorts ContainerServerPort "container"
      command := ["/usr/bin/swift-container-server", "/etc/swift/container-server.conf", "-v"] },
    { contName := "container-replicator"
      image := swiftstorage.spec.containerImageContainer
      ports := []
      command := ["/usr/bin/swift-container-replicator", "/etc/swift/container-server.conf", "-v"] },
    { contName := "container-auditor"
      image := swiftstorage.spec.containerImageContainer
      ports := []
      command := ["/usr/bin/swift-container-replicator", "/etc/swift/container-server.conf", "-v"] },
    { contName := "container-updater"
      image := swiftstorage.spec.containerImageContainer
      ports := []
      command := ["/usr/bin/swift-container-replicator", "/etc/swift/container-server.conf", "-v"] },
    { contName := "object-server"
      image := swiftstorage.spec.containerImageObject
      ports := getPorts ObjectServerPort "object"
      command := ["/usr/bin/swift-object-server", "/etc/swift/object-server.conf", "-v"] },
    { contName := "object-replicator"
      image := swiftstorage.spec.containerImageObject
      ports := []
      command := ["/usr/bin/swift-object-replicator", "/etc/swift/object-server.conf", "-v"] },
    { contName := "object-auditor"
      image := swiftstorage.spec.containerImageObject
      ports := []
      command := ["/usr/bin/swift-object-replicator", "/etc/swift/object-server.conf", "-v"] },
    { contName := "object-updater"
      image := swiftstorage.spec.containerImageObject
      ports := []
      command := ["/usr/bin/swift-object-replicator", "/etc/swift/object-server.conf", "-v"] },
    { contName := "object-expirer"
      image := swiftstorage.spec.containerImageProxy
      ports := []
      command := ["/usr/bin/swift-object-expirer", "/etc/swift/object-expirer.conf", "-v"] },
    { contName := "rsync"
      image := swiftstorage.spec.containerImageObject
      ports := getPorts RsyncPort "rsync"
      command := ["/usr/bin/rsync", "--daemon", "--no-detach", "--config=/etc/swift/rsyncd.conf", "--log-file=/dev/stdout"] },
    { contName := "memcached"
      image := swiftstorage.spec.containerImageMemcached
      ports := getPorts MemcachedPort "memcached"
      command := ["/usr/bin/memcached", "-p", "11211", "-u", "memcached"] },
    { contName := "ring-sync"
      image := swiftstorage.spec.containerImageProxy
      ports := []
      command := ["/usr/local/bin/container-scripts/ring-sync.sh"] } ]

/-- `getStorageStatefulSet`: the workload specification; `Replicas` points at
the instance's (possibly corrected) spec value. -/
def getStorageStatefulSet (swiftstorage : SwiftStorage) : StatefulSetSpec :=
  { name := swiftstorage.name
    ns := swiftstorage.ns
    serviceName := swiftstorage.name
    replicas := swiftstorage.spec.replicas
    containers := getStorageContainers swiftstorage }

/-- Look a PersistentVolumeClaim up by name (the client `Get` call of
`getDeviceList`); `none` models the not-found error. -/
def pvcLookup (pvcs : List Pvc) (n : String) : Option Pvc :=
  pvcs.find? (fun p => p.name == n)

/-- The per-replica claim name `fmt.Sprintf("%s-%s-%d", swift.ClaimName,
instance.Name, replica)`. -/
def claimNameFor (instName : String) (replica : Nat) : String :=
  s!"{ClaimName}-{instName}-{replica}"

/-- One device-manifest line `fmt.Sprintf("%s,%s,%d\n", host, "d1", c)` with
`host = "{name}-{replica}.{name}"` and `c` the capacity in whole gigabytes
(`AsInt64` value divided by 1000*1000*1000; the zero quantity of a claim
without bound capacity yields 0). -/
def deviceLine (instName : String) (replica : Nat) (capacityBytes : Nat) : String :=
  s!"{instName}-{replica}.{instName},d1,{capacityBytes / 1000000000}" ++ "\n"

/-- The loop body of `getDeviceList` over a list of replica indices: a
missing claim aborts with the lookup error, otherwise one line per replica
is appended in order. -/
def deviceListLoop (pvcs : List Pvc) (instName : String) :
    List Nat → Option String
  | [] => some ""
  | replica :: rest =>
    match pvcLookup pvcs (claimNameFor instName replica) with
    | some foundClaim =>
      (deviceListLoop pvcs instName rest).map
        (fun restStr => deviceLine instName replica (foundClaim.capacityBytes.getD 0) ++ restStr)
    | none => none

/-- `getDeviceList`: iterate replica indices `0 .. replicas-1` (a
non-positive replica count yields the empty manifest, as the Go loop does
not run); `none` models the propagated client error. -/
def getDeviceList (pvcs : List Pvc) (swiftstorage : SwiftStorage) : Option String :=
  deviceListLoop pvcs swiftstorage.name (List.range swiftstorage.spec.replicas.toNat)

/-- The outcome of one `Reconcile` invocation: `done` models
`(ctrl.Result{}, nil)`, `requeueAfter s` models a non-empty result with
`RequeueAfter: s` seconds, `err` models a non-nil returned error. -/
inductive RecResult
  | done
  | requeueAfter (seconds : Nat)
  | err
deriving DecidableEq, Repr

/-- One create/update effect performed against the platform, in the order
the Go code performs them. -/
inductive Effect
  | statusUpdate (conds : List Condition)
  | specUpdate (replicas : Int)
  | ensureConfigMaps (names : List String)
  | serviceCreateOrPatch (svc : Service)
  | networkPolicyCreateOrPatch (np : NetworkPolicy)
  | statefulSetCreateOrPatch (sset : StatefulSetSpec)
  | deviceConfigMapEnsure (devices : String)
deriving DecidableEq, Repr

/-- The platform state a reconciliation reads: the SwiftStorage resource
(`none` models the not-found case of the initial `Get`), whether the
externally produced ring ConfigMap exists, the live StatefulSet of the
instance's name (`none` models `IsNotFound`), and the visible
PersistentVolumeClaims. -/
structure World where
  swiftStorage : Option SwiftStorage
  ringConfigMapExists : Bool
  statefulSet : Option StatefulSetObj
  pvcs : List Pvc
deriving DecidableEq, Repr

/-- Result, successor platform state and ordered effect trace of one
`Reconcile` invocation. -/
structure RecOutcome where
  result : RecResult
  world : World
  trace : List Effect
deriving DecidableEq, Repr

/-- lib-common `Conditions.Set`: update the entry of the same type in place,
append otherwise; an existing type is never removed. -/
def setCondition (conds : List Condition) (c : Condition) : List Condition :=
  if conds.any (fun e => e.condType == c.condType) then
    conds.map (fun e => if e.condType == c.condType then c else e)
  else conds ++ [c]

/-- lib-common `Conditions.MarkTrue`. -/
def markTrue (conds : List Condition) (t : String) : List Condition :=
  setCondition conds { condType := t, status := .condTrue }

/-- The full initial condition list built by `condition.CreateList` /
`Conditions.Init`: the generic Ready condition and the role-specific
SwiftStorageReady condition, both unknown. -/
def fullConditionSet : List Condition :=
  [ { condType := ReadyCondition, status := .unknown },
    { condType := SwiftStorageReadyCondition, status := .unknown } ]

/-- The instance after the InitConditions phase: a nil conditions slice is
replaced by the full unknown set, anything else is untouched. -/
def initializedInstance (inst0 : SwiftStorage) : SwiftStorage :=
  match inst0.conditions with
  | none => { inst0 with conditions := some fullConditionSet }
  | some _ => inst0

/-- The effects of the InitConditions phase: `r.Status().Update` persists
the freshly initialized condition set; nothing is written otherwise. -/
def initConditionsTrace (inst0 : SwiftStorage) : List Effect :=
  match inst0.conditions with
  | none => [Effect.statusUpdate fullConditionSet]
  | some _ => []

/-- The instance after the ScaleDownGuard: when the existing StatefulSet's
configured replicas exceed the requested count, the request is raised back
to the existing value. -/
def scaleDownInstance (inst1 : SwiftStorage) (found? : Option StatefulSetObj) :
    SwiftStorage :=
  match found? with
  | some found =>
    if found.specReplicas > inst1.spec.replicas then
      { inst1 with spec := { inst1.spec with replicas := found.specReplicas } }
    else inst1
  | none => inst1

/-- The effects of the ScaleDownGuard: `r.Client.Update` persists the
corrected spec exactly when the rewrite happened. -/
def scaleDownTrace (inst1 : SwiftStorage) (found? : Option StatefulSetObj) :
    List Effect :=
  match found? with
  | some found =>
    if found.specReplicas > inst1.spec.replicas then
      [Effect.specUpdate found.specReplicas]
    else []
  | none => []

/-- The tail of `Reconcile` after the StatefulSet apply: when the live
ready-replica count equals the requested count, build the device list (a
failure is returned as the reconciliation's error), publish it as a
ConfigMap, mark both ready conditions true and persist the status;
otherwise fall through to the final successful return. -/
def readinessTail (inst2 : SwiftStorage) (w3 : World) (ready : Int)
    (tr : List Effect) : RecOutcome :=
  if ready = inst2.spec.replicas then
    match getDeviceList w3.pvcs inst2 with
    | none => { result := .err, world := w3, trace := tr }
    | some devices =>
      let conds := markTrue (markTrue (inst2.conditions.getD []) ReadyCondition)
        SwiftStorageReadyCondition
      let inst3 := { inst2 with conditions := some conds }
      { result := .done
        world := { w3 with swiftStorage := some inst3 }
        trace := tr ++ [Effect.deviceConfigMapEnsure devices, Effect.statusUpdate conds] }
  else { result := .done, world := w3, trace := tr }

/-- The ready-replica count `CreateOrPatch` reads back from the live
StatefulSet: the observed count of the existing object, 0 for a freshly
created one. -/
def readyOf : Option StatefulSetObj → Int
  | some found => found.readyReplicas
  | none => 0

/-- The phases of `Reconcile` from EnsureEndpoint on: EnsureEndpoint,
EnsureIsolationPolicy, ScaleDownGuard, EnsureWorkload, then the
readiness-gated tail.  `inst1` is the in-memory instance, `w1` the platform
state with it stored, `tr` the effects performed so far. -/
def reconcileFromEndpoint (inst1 : SwiftStorage) (w1 : World) (tr : List Effect) :
    RecOutcome :=
  let tr3 := tr ++
    [Effect.serviceCreateOrPatch (getStorageService inst1),
     Effect.networkPolicyCreateOrPatch (getStorageNetworkPolicy inst1)]
  let inst2 := scaleDownInstance inst1 w1.statefulSet
  let w2 : World := { w1 with swiftStorage := some inst2 }
  let tr4 := tr3 ++ scaleDownTrace inst1 w1.statefulSet
  let ready : Int := readyOf w2.statefulSet
  let w3 : World := { w2 with
    statefulSet := some { specReplicas := inst2.spec.replicas, readyReplicas := ready } }
  let tr5 := tr4 ++ [Effect.statefulSetCreateOrPatch (getStorageStatefulSet inst2)]
  readinessTail inst2 w3 ready tr5

/-- `Reconcile`, phase by phase in source order: Load, InitConditions,
DeletionGuard, EnsureConfigBundle, WaitForRingConfig, then
`reconcileFromEndpoint` (EnsureEndpoint, EnsureIsolationPolicy,
ScaleDownGuard, EnsureWorkload, ReadinessCheck, PublishDeviceManifest,
MarkReady). -/
def reconcile (w : World) : RecOutcome :=
  match w.swiftStorage with
  | none => { result := .done, world := w, trace := [] }
  | some inst0 =>
    let inst1 := initializedInstance inst0
    let w1 : World := { w with swiftStorage := some inst1 }
    let tr1 := initConditionsTrace inst0
    if inst1.deletionTimestampIsZero = false then
      { result := .done, world := w1, trace := tr1 }
    else
      let tr2 := tr1 ++
        [Effect.ensureConfigMaps [inst1.name ++ "-config-data", inst1.name ++ "-scripts"]]
      if w1.ringConfigMapExists = false then
        { result := .requeueAfter 5, world := w1, trace := tr2 }
      else
        reconcileFromEndpoint inst1 w1 tr2

/-- The configured replica count of the live workload, when one exists. -/
def ssSpecReplicas (w : World) : Option Int :=
  w.statefulSet.map (fun s => s.specReplicas)

/-- A user edit of the DesiredState between reconciliations: set the
requested replica count to an arbitrary value. -/
def setRequestedReplicas (w : World) (r : Int) : World :=
  match w.swiftStorage with
  | some inst =>
    { w with swiftStorage := some { inst with spec := { inst.spec with replicas := r } } }
  | none => w

/-- A sequence of reconciliations: before each invocation the user may
rewrite the requested replica count arbitrarily. -/
def runEdits (w : World) : List Int → World
  | [] => w
  | r :: rest => runEdits (reconcile (setRequestedReplicas w r)).world rest

/-- Effects that create or update the endpoint, the isolation policy or the
workload (including the derived device ConfigMap). -/
def touchesEndpointPolicyOrWorkload : Effect → Bool
  | .serviceCreateOrPatch _ => true
  | .networkPolicyCreateOrPatch _ => true
  | .statefulSetCreateOrPatch _ => true
  | .deviceConfigMapEnsure _ => true
  | _ => false

/-- A status persist in the trace wrote the generic Ready condition as
true. -/
def readyMarkedTrue (tr : List Effect) : Prop :=
  ∃ conds, Effect.statusUpdate conds ∈ tr ∧
    Condition.mk ReadyCondition .condTrue ∈ conds

/-- The condition types present on an optional condition list. -/
def condTypes (c : Option (List Condition)) : List String :=
  (c.getD []).map (fun e => e.condType)

/-- Container lookup by name in a generated container list. -/
def findContainer (cs : List Container) (n : String) : Option Container :=
  cs.find? (fun c => c.contName == n)

/-- Concatenation of a list of strings, used to state the expected device
manifest. -/
def concatStrings : List String → String
  | [] => ""
  | s :: rest => s ++ concatStrings rest

/-- The device manifest as the spec's words describe it: one line
per replica index in ascending order, each of the form
`{name}-{i}.{name},d1,{capacity div 10^9}` followed by a newline.  This
definition follows the specification text and is compared against
`getDeviceList`, which is translated from the source. -/
def specDeviceManifest (n : String) (caps : Nat → Nat) (replicas : Nat) : String :=
  concatStrings ((List.range replicas).map
    (fun i => s!"{n}-{i}.{n},d1,{caps i / 1000000000}" ++ "\n"))

/-- The condition list written by the MarkReady phase: both ready
conditions marked true on top of the instance's current conditions. -/
def markedConds (inst2 : SwiftStorage) : List Condition :=
  markTrue (markTrue (inst2.conditions.getD []) ReadyCondition) SwiftStorageReadyCondition

/-- The reconciliation reached the MarkReady phase for the (possibly
replica-corrected) instance `inst2`: the final state stores the instance
with both conditions marked, and a StatefulSet whose observed ready-replica
count equals the requested count. -/
def readyOutcome (w : World) (inst2 : SwiftStorage) : Prop :=
  (reconcile w).world.swiftStorage =
    some { inst2 with conditions := some (markedConds inst2) } ∧
  (reconcile w).world.statefulSet =
    some { specReplicas := inst2.spec.replicas, readyReplicas := inst2.spec.replicas }

/-- A sample spec used by the concrete evaluation theorems below. -/
def alphaSpec : SwiftStorageSpec :=
  { replicas := 2, containerImageAccount := "a", containerImageContainer := "c",
    containerImageObject := "o", containerImageProxy := "p", containerImageMemcached := "m",
    swiftConfSecret := "swift-conf", storageClass := "local-storage", storageRequest := "10Gi" }

/-- Sample instance `alpha` with 2 requested replicas and no conditions yet. -/
def alphaStorage : SwiftStorage :=
  { name := "alpha", ns := "default", spec := alphaSpec,
    conditions := none, deletionTimestampIsZero := true }

/-- Bound claims for the two replicas of `alpha`: 10 GB and 21 GB. -/
def alphaPvcs : List Pvc :=
  [ { name := "srv-alpha-0", capacityBytes := some 10000000000 },
    { name := "srv-alpha-1", capacityBytes := some 21000000000 } ]

/-- Capacity table of `alphaPvcs` as a function of the replica index. -/
def alphaCaps : Nat → Nat := fun i => if i = 0 then 10000000000 else 21000000000

/-- Sample instance `beta` with a single replica. -/
def betaStorage : SwiftStorage :=
  { name := "beta", ns := "default",
    spec := { alphaSpec with replicas := 1 },
    conditions := none, deletionTimestampIsZero := true }

/-- A platform state for `beta` whose workload reports full readiness but
whose claim list is empty. -/
def gammaWorld : World :=
  { swiftStorage := some betaStorage, ringConfigMapExists := true,
    statefulSet := some { specReplicas := 1, readyReplicas := 1 }, pvcs := [] }

/-- `alpha` carrying a deletion timestamp. -/
def deletedStorage : SwiftStorage :=
  { name := "alpha", ns := "default", spec := alphaSpec,
    conditions := none, deletionTimestampIsZero := false }

/-- A platform state for `alpha` in which the ring ConfigMap is absent. -/
def ringlessWorld : World :=
  { swiftStorage := some alphaStorage, ringConfigMapExists := false,
    statefulSet := none, pvcs := [] }

/-- A platform state holding the deleting instance. -/
def deletedWorld : World :=
  { swiftStorage := some deletedStorage, ringConfigMapExists := false,
    statefulSet := none, pvcs := [] }

/-- A platform state for `alpha` whose live workload reports only 1 of 2
ready replicas. -/
def notReadyWorld : World :=
  { swiftStorage := some alphaStorage, ringConfigMapExists := true,
    statefulSet := some { specReplicas := 2, readyReplicas := 1 }, pvcs := alphaPvcs }

/-- `alpha` edited down to 1 requested replica. -/
def shrinkStorage : SwiftStorage :=
  { name := "alpha", ns := "default",
    spec := { alphaSpec with replicas := 1 },
    conditions := none, deletionTimestampIsZero := true }

/-- A platform state in which a 3-replica workload already exists while only
1 replica is requested. -/
def shrinkWorld : World :=
  { swiftStorage := some shrinkStorage, ringConfigMapExists := true,
    statefulSet := some { specReplicas := 3, readyReplicas := 2 }, pvcs := [] }

/-- When every replica index in the list has a claim with the stated
capacity, the device-list loop produces exactly one line per index, in
order. -/
theorem deviceListLoop_all_found (pvcs : List Pvc) (n : String) (caps : Nat → Nat)
    (l : List Nat)
    (h : ∀ i ∈ l, ∃ p, pvcLookup pvcs (claimNameFor n i) = some p ∧
      p.capacityBytes = some (caps i)) :
    deviceListLoop pvcs n l =
      some (concatStrings (l.map (fun i => deviceLine n i (caps i)))) := by
  induction l with
  | nil => simp [deviceListLoop, concatStrings]
  | cons a rest ih =>
    obtain ⟨p, hp, hcap⟩ := h a (by simp)
    rw [deviceListLoop, hp, ih (fun i hi => h i (by simp [hi]))]
    simp [hcap, concatStrings]

/-- Claim C3: when every storage claim `{claim-prefix}-{name}-{i}` for
`i < N` is found with bound capacity `caps i` bytes, `getDeviceList`
returns exactly the concatenation, in ascending replica order, of one line
`{name}-{i}.{name},d1,{caps i div 10^9}` per replica. -/
theorem getDeviceList_manifest (pvcs : List Pvc) (inst : SwiftStorage) (N : Nat)
    (caps : Nat → Nat) (hN : inst.spec.replicas = (N : Int))
    (h : ∀ i < N, ∃ p, pvcLookup pvcs (claimNameFor inst.name i) = some p ∧
      p.capacityBytes = some (caps i)) :
    getDeviceList pvcs inst = some (specDeviceManifest inst.name caps N) := by
  rw [getDeviceList, hN]
  rw [deviceListLoop_all_found pvcs inst.name caps _ (fun i hi => h i (by simpa using hi))]
  simp [specDeviceManifest, deviceLine]

/-- Witness for C3: object `alpha` with 2 replicas and bound capacities
10_000_000_000 and 21_000_000_000 bytes yields exactly the expected
manifest. -/
theorem getDeviceList_manifest_witness :
    getDeviceList alphaPvcs alphaStorage =
      some ("alpha-0.alpha,d1,10\nalpha-1.alpha,d1,21\n") := by
  have h := getDeviceList_manifest alphaPvcs alphaStorage 2 alphaCaps rfl
    (by
      intro i hi
      interval_cases i
      · exact ⟨_, rfl, rfl⟩
      · exact ⟨_, rfl, rfl⟩)
  exact h.trans (by rfl)

/-- A replica index whose claim lookup fails aborts the device-list loop
with the error. -/
theorem deviceListLoop_missing (pvcs : List Pvc) (n : String) (l : List Nat) (i : Nat)
    (hi : i ∈ l) (h : pvcLookup pvcs (claimNameFor n i) = none) :
    deviceListLoop pvcs n l = none := by
  induction l with
  | nil => simp at hi
  | cons a rest ih =>
    rcases List.mem_cons.mp hi with rfl | hmem
    · rw [deviceListLoop, h]
    · rw [deviceListLoop]
      cases ha : pvcLookup pvcs (claimNameFor n a) with
      | none => rfl
      | some p => rw [ih hmem]; rfl

/-- A missing claim at any replica index below the replica count makes
`getDeviceList` return the error. -/
theorem getDeviceList_missing_err (pvcs : List Pvc) (inst : SwiftStorage) (N i : Nat)
    (hN : inst.spec.replicas = (N : Int)) (hiN : i < N)
    (h : pvcLookup pvcs (claimNameFor inst.name i) = none) :
    getDeviceList pvcs inst = none := by
  rw [getDeviceList, hN]
  exact deviceListLoop_missing pvcs inst.name _ i (by simpa using hiN) h

/-- Counterexample to C4: a claim that exists but reports no bound capacity
(an unbound claim) does not make `getDeviceList` return an error; instead
the function emits a manifest line whose capacity defaults to 0. -/
theorem getDeviceList_unbound_zero_line :
    pvcLookup [{ name := "srv-beta-0", capacityBytes := none }] (claimNameFor "beta" 0) =
      some { name := "srv-beta-0", capacityBytes := none } ∧
    getDeviceList [{ name := "srv-beta-0", capacityBytes := none }] betaStorage ≠ none ∧
    getDeviceList [{ name := "srv-beta-0", capacityBytes := none }] betaStorage =
      some "beta-0.beta,d1,0\n" := ⟨rfl, by decide, rfl⟩

/-- Claim C4 (amended): a missing storage claim below the replica count is a
fatal error of `getDeviceList`, and in a reconciliation whose readiness
check passes, a failed device-list build ends the invocation with the error
and performs no further effect (in particular no device ConfigMap is
published and no condition is marked); an existing claim without bound
capacity, however, is not an error and yields a zero-capacity line. -/
theorem getDeviceList_missing_error_fatal :
    (∀ (pvcs : List Pvc) (inst : SwiftStorage) (N i : Nat),
      inst.spec.replicas = (N : Int) → i < N →
      pvcLookup pvcs (claimNameFor inst.name i) = none →
      getDeviceList pvcs inst = none) ∧
    (∀ (inst : SwiftStorage) (w3 : World) (ready : Int) (tr : List Effect),
      getDeviceList w3.pvcs inst = none → ready = inst.spec.replicas →
      readinessTail inst w3 ready tr = { result := .err, world := w3, trace := tr }) := by
  constructor
  · exact getDeviceList_missing_err
  · intro inst w3 ready tr hdev hready
    rw [readinessTail, if_pos hready, hdev]

/-- Witness for C4: `beta` with one replica and no visible claims errors in
`getDeviceList`, and the readiness tail propagates the error. -/
theorem getDeviceList_missing_error_fatal_witness :
    getDeviceList [] betaStorage = none ∧
    readinessTail betaStorage gammaWorld 1 [] =
      { result := .err, world := gammaWorld, trace := [] } :=
  ⟨getDeviceList_missing_error_fatal.1 [] betaStorage 1 0 rfl (by decide) rfl,
   getDeviceList_missing_error_fatal.2 betaStorage gammaWorld 1 [] rfl rfl⟩

/-- Claim C6: the generated headless Service exposes exactly the account,
container, object and rsync ports, and the cache (memcached) port is not
among them. -/
theorem getStorageService_ports_exact (s : SwiftStorage) :
    (getStorageService s).ports =
      [ { portName := "account", port := AccountServerPort, protocol := "TCP" },
        { portName := "container", port := ContainerServerPort, protocol := "TCP" },
        { portName := "object", port := ObjectServerPort, protocol := "TCP" },
        { portName := "rsync", port := RsyncPort, protocol := "TCP" } ] ∧
    MemcachedPort ∉ (getStorageService s).ports.map ServicePort.port := by
  refine ⟨rfl, ?_⟩
  simp [getStorageService, MemcachedPort, AccountServerPort, ContainerServerPort,
    ObjectServerPort, RsyncPort]

/-- Claim C7: the generated network-isolation policy contains exactly two
ingress rules: the four storage ports from storage-labelled pods, and only
the three server ports (not rsync) from proxy-labelled pods. -/
theorem getStorageNetworkPolicy_ingress_exact (s : SwiftStorage) :
    (getStorageNetworkPolicy s).ingress =
      [ { ports := [AccountServerPort, ContainerServerPort, ObjectServerPort, RsyncPort]
          fromPodSelector := storageLabels },
        { ports := [AccountServerPort, ContainerServerPort, ObjectServerPort]
          fromPodSelector := proxyLabels } ] ∧
    RsyncPort ∉ [AccountServerPort, ContainerServerPort, ObjectServerPort] := by
  refine ⟨rfl, ?_⟩
  simp [RsyncPort, AccountServerPort, ContainerServerPort, ObjectServerPort]

/-- Claim C9: in the generated container list, the container-auditor and
container-updater containers run the same command as container-replicator
(`/usr/bin/swift-container-replicator`), and the object-auditor and
object-updater containers run the same command as object-replicator
(`/usr/bin/swift-object-replicator`). -/
theorem getStorageContainers_replicator_command_reuse (s : SwiftStorage) :
    (findContainer (getStorageContainers s) "container-replicator").map Container.command =
      some ["/usr/bin/swift-container-replicator", "/etc/swift/container-server.conf", "-v"] ∧
    (findContainer (getStorageContainers s) "container-auditor").map Container.command =
      some ["/usr/bin/swift-container-replicator", "/etc/swift/container-server.conf", "-v"] ∧
    (findContainer (getStorageContainers s) "container-updater").map Container.command =
      some ["/usr/bin/swift-container-replicator", "/etc/swift/container-server.conf", "-v"] ∧
    (findContainer (getStorageContainers s) "object-replicator").map Container.command =
      some ["/usr/bin/swift-object-replicator", "/etc/swift/object-server.conf", "-v"] ∧
    (findContainer (getStorageContainers s) "object-auditor").map Container.command =
      some ["/usr/bin/swift-object-replicator", "/etc/swift/object-server.conf", "-v"] ∧
    (findContainer (getStorageContainers s) "object-updater").map Container.command =
      some ["/usr/bin/swift-object-replicator", "/etc/swift/object-server.conf", "-v"] :=
  ⟨rfl, rfl, rfl, rfl, rfl, rfl⟩

/-- `Conditions.Set` never removes a condition type: every type present
before is present after. -/
theorem condTypes_setCondition (conds : List Condition) (c : Condition) (t : String)
    (h : t ∈ conds.map Condition.condType) :
    t ∈ (setCondition conds c).map Condition.condType := by
  unfold setCondition
  split
  · obtain ⟨e, he, het⟩ := List.mem_map.mp h
    refine List.mem_map.mpr ⟨_, List.mem_map.mpr ⟨e, he, rfl⟩, ?_⟩
    by_cases hb : (e.condType == c.condType) = true
    · simp only [hb, if_true]
      exact (eq_of_beq hb).symm.trans het
    · simp only [hb]
      simpa using het
  · simp only [List.map_append, List.mem_append]
    exact Or.inl h

/-- `MarkTrue` never removes a condition type. -/
theorem condTypes_markTrue (l : List Condition) (u t : String)
    (h : t ∈ l.map Condition.condType) :
    t ∈ (markTrue l u).map Condition.condType :=
  condTypes_setCondition l _ t h

/-- The readiness-gated tail never changes the stored StatefulSet. -/
theorem readinessTail_statefulSet (inst2 : SwiftStorage) (w3 : World) (ready : Int)
    (tr : List Effect) :
    (readinessTail inst2 w3 ready tr).world.statefulSet = w3.statefulSet := by
  unfold readinessTail
  split
  · cases hg : getDeviceList w3.pvcs inst2 <;> simp [hg]
  · rfl

/-- The ScaleDownGuard never changes the instance's conditions. -/
theorem scaleDownInstance_conditions (inst1 : SwiftStorage) (f : Option StatefulSetObj) :
    (scaleDownInstance inst1 f).conditions = inst1.conditions := by
  unfold scaleDownInstance
  cases f with
  | none => rfl
  | some found => by_cases h : found.specReplicas > inst1.spec.replicas <;> simp [h]

/-- The readiness-gated tail only ever appends to the trace, and the stored
instance either stays as handed in or gets both ready conditions marked. -/
theorem readinessTail_shape (inst2 : SwiftStorage) (w3 : World) (ready : Int)
    (tr : List Effect) :
    ∃ suf,
      (readinessTail inst2 w3 ready tr).trace = tr ++ suf ∧
      ((readinessTail inst2 w3 ready tr).world.swiftStorage = w3.swiftStorage ∨
       (readinessTail inst2 w3 ready tr).world.swiftStorage =
         some { inst2 with conditions := some (markTrue (markTrue (inst2.conditions.getD []) ReadyCondition) SwiftStorageReadyCondition) }) := by
  unfold readinessTail
  split
  · cases hg : getDeviceList w3.pvcs inst2 with
    | none => exact ⟨[], by simp [hg], Or.inl (by simp [hg])⟩
    | some d =>
      exact ⟨[Effect.deviceConfigMapEnsure d,
        Effect.statusUpdate (markTrue (markTrue (inst2.conditions.getD []) ReadyCondition) SwiftStorageReadyCondition)],
        by simp [hg], Or.inr (by simp [hg])⟩
  · exact ⟨[], by simp, Or.inl rfl⟩

/-- The phases from EnsureEndpoint on only append to the trace, and leave
the instance either with its conditions untouched or with both ready
conditions marked. -/
theorem reconcileFromEndpoint_shape (inst1 : SwiftStorage) (w1 : World)
    (tr : List Effect) :
    ∃ suf,
      (reconcileFromEndpoint inst1 w1 tr).trace = tr ++ suf ∧
      ((reconcileFromEndpoint inst1 w1 tr).world.swiftStorage =
          some (scaleDownInstance inst1 w1.statefulSet) ∨
       (reconcileFromEndpoint inst1 w1 tr).world.swiftStorage =
         some { scaleDownInstance inst1 w1.statefulSet with conditions := some (markTrue (markTrue ((scaleDownInstance inst1 w1.statefulSet).conditions.getD []) ReadyCondition) SwiftStorageReadyCondition) }) := by
  simp only [reconcileFromEndpoint]
  obtain ⟨suf, htr, hss⟩ := readinessTail_shape _ _ _ _
  refine ⟨[Effect.serviceCreateOrPatch (getStorageService inst1),
      Effect.networkPolicyCreateOrPatch (getStorageNetworkPolicy inst1)] ++
      scaleDownTrace inst1 w1.statefulSet ++
      [Effect.statefulSetCreateOrPatch (getStorageStatefulSet (scaleDownInstance inst1 w1.statefulSet))] ++ suf, ?_, ?_⟩
  · rw [htr]
    simp
  · simpa using hss

/-- Condition initialization does not change the deletion flag. -/
theorem initializedInstance_deletion (inst : SwiftStorage) :
    (initializedInstance inst).deletionTimestampIsZero = inst.deletionTimestampIsZero := by
  unfold initializedInstance
  cases inst.conditions <;> rfl

/-- Condition initialization does not change the spec. -/
theorem initializedInstance_spec (inst : SwiftStorage) :
    (initializedInstance inst).spec = inst.spec := by
  unfold initializedInstance
  cases inst.conditions <;> rfl

/-- Every reconciliation of a stored instance begins its trace with the
InitConditions effects, and ends with the instance's conditions either
exactly as initialized or with both ready conditions marked on top. -/
theorem reconcile_shape (w : World) (inst : SwiftStorage)
    (hw : w.swiftStorage = some inst) :
    ∃ suf inst',
      (reconcile w).trace = initConditionsTrace inst ++ suf ∧
      (reconcile w).world.swiftStorage = some inst' ∧
      (inst'.conditions = (initializedInstance inst).conditions ∨
       inst'.conditions = some (markTrue (markTrue (((initializedInstance inst).conditions).getD []) ReadyCondition) SwiftStorageReadyCondition)) := by
  unfold reconcile
  rw [hw]
  simp only []
  split
  · exact ⟨[], initializedInstance inst, by simp, rfl, Or.inl rfl⟩
  · split
    · exact ⟨_, initializedInstance inst, rfl, rfl, Or.inl rfl⟩
    · obtain ⟨suf, htr, hss⟩ := reconcileFromEndpoint_shape (initializedInstance inst)
        { w with swiftStorage := some (initializedInstance inst) }
        (initConditionsTrace inst ++
          [Effect.ensureConfigMaps [(initializedInstance inst).name ++ "-config-data",
            (initializedInstance inst).name ++ "-scripts"]])
      rcases hss with hss | hss
      · refine ⟨[Effect.ensureConfigMaps [(initializedInstance inst).name ++ "-config-data",
            (initializedInstance inst).name ++ "-scripts"]] ++ suf,
          scaleDownInstance (initializedInstance inst) w.statefulSet, ?_, ?_, Or.inl ?_⟩
        · rw [htr]; simp
        · simpa using hss
        · exact scaleDownInstance_conditions _ _
      · refine ⟨[Effect.ensureConfigMaps [(initializedInstance inst).name ++ "-config-data",
            (initializedInstance inst).name ++ "-scripts"]] ++ suf,
          _, ?_, by simpa using hss, Or.inr ?_⟩
        · rw [htr]; simp
        · simp [scaleDownInstance_conditions]

/-- Every condition type present before condition initialization is present
after it. -/
theorem condTypes_initialized (inst : SwiftStorage) (t : String)
    (h : t ∈ condTypes inst.conditions) :
    t ∈ ((initializedInstance inst).conditions.getD []).map Condition.condType := by
  cases hc : inst.conditions with
  | none => simp [condTypes, hc] at h
  | some l => simpa [initializedInstance, condTypes, hc] using h

/-- Claim C8: on an instance with no conditions yet, the very first effect
of the reconciliation persists the full condition set (both known types, in
unknown state), and the final instance still carries both types; moreover,
across any reconciliation no condition type is ever removed, only
transitioned. -/
theorem reconcile_conditions_init_persist (w : World) (inst : SwiftStorage)
    (hw : w.swiftStorage = some inst) :
    (inst.conditions = none →
      (reconcile w).trace.head? = some (Effect.statusUpdate fullConditionSet) ∧
      ∃ inst', (reconcile w).world.swiftStorage = some inst' ∧
        ReadyCondition ∈ condTypes inst'.conditions ∧
        SwiftStorageReadyCondition ∈ condTypes inst'.conditions) ∧
    (∀ (inst' : SwiftStorage) (t : String),
      (reconcile w).world.swiftStorage = some inst' →
      t ∈ condTypes inst.conditions → t ∈ condTypes inst'.conditions) := by
  obtain ⟨suf, inst', htr, hss, hconds⟩ := reconcile_shape w inst hw
  constructor
  · intro hc
    constructor
    · rw [htr]
      simp [initConditionsTrace, hc]
    · refine ⟨inst', hss, ?_, ?_⟩
      · rcases hconds with h | h <;>
        · simp only [condTypes, h, initializedInstance, hc, Option.getD_some]
          decide
      · rcases hconds with h | h <;>
        · simp only [condTypes, h, initializedInstance, hc, Option.getD_some]
          decide
  · intro inst'' t hinst'' ht
    rw [hinst''] at hss
    obtain rfl : inst'' = inst' := Option.some_inj.mp hss
    have ht1 := condTypes_initialized inst t ht
    rcases hconds with h | h
    · simp only [condTypes, h]
      cases hc : (initializedInstance inst).conditions with
      | none => rw [hc] at ht1; simp at ht1
      | some l => rw [hc] at ht1; simpa using ht1
    · simp only [condTypes, h, Option.getD_some]
      exact condTypes_markTrue _ _ _ (condTypes_markTrue _ _ _ ht1)

/-- Witness for C8: reconciling `alpha` (no conditions yet) in a ringless
platform state persists the full unknown condition set first, and the final
instance carries both condition types. -/
theorem reconcile_conditions_init_persist_witness :
    (reconcile ringlessWorld).trace.head? = some (Effect.statusUpdate fullConditionSet) ∧
    ∃ inst', (reconcile ringlessWorld).world.swiftStorage = some inst' ∧
      ReadyCondition ∈ condTypes inst'.conditions ∧
      SwiftStorageReadyCondition ∈ condTypes inst'.conditions :=
  (reconcile_conditions_init_persist ringlessWorld alphaStorage rfl).1 rfl

/-- Claim C10: an instance with a deletion timestamp and no conditions yet
still gets its conditions initialized and persisted before the
reconciliation stops, because the deletion check runs only after condition
initialization. -/
theorem reconcile_deletion_after_condition_init (w : World) (inst : SwiftStorage)
    (hw : w.swiftStorage = some inst) (hc : inst.conditions = none)
    (hd : inst.deletionTimestampIsZero = false) :
    reconcile w =
      { result := .done,
        world := { w with swiftStorage := some { inst with conditions := some fullConditionSet } },
        trace := [Effect.statusUpdate fullConditionSet] } := by
  unfold reconcile
  rw [hw]
  simp [initializedInstance, initConditionsTrace, hc, hd]

/-- Witness for C10: the deleting `alpha` instance gets exactly one effect,
the persisted full condition set, and the reconciliation stops. -/
theorem reconcile_deletion_after_condition_init_witness :
    reconcile deletedWorld =
      { result := .done,
        world := { deletedWorld with swiftStorage := some { deletedStorage with conditions := some fullConditionSet } },
        trace := [Effect.statusUpdate fullConditionSet] } :=
  reconcile_deletion_after_condition_init deletedWorld deletedStorage rfl rfl rfl

/-- Claim C2: with the ring ConfigMap absent, a reconciliation of a live
instance returns retry-after-5-seconds having ensured only the
configuration bundle (after the condition-initialization persist); and in
any invocation with the ring ConfigMap absent, no endpoint,
isolation-policy, workload or device-ConfigMap effect occurs. -/
theorem reconcile_ring_gate :
    (∀ (w : World) (inst : SwiftStorage), w.swiftStorage = some inst →
      inst.deletionTimestampIsZero = true → w.ringConfigMapExists = false →
      (reconcile w).result = .requeueAfter 5 ∧
      (reconcile w).trace = initConditionsTrace inst ++
        [Effect.ensureConfigMaps [inst.name ++ "-config-data", inst.name ++ "-scripts"]]) ∧
    (∀ w : World, w.ringConfigMapExists = false →
      ∀ e ∈ (reconcile w).trace, touchesEndpointPolicyOrWorkload e = false) := by
  constructor
  · intro w inst hw hd hring
    unfold reconcile
    rw [hw]
    have h1 : (initializedInstance inst).deletionTimestampIsZero = true := by
      cases hcc : inst.conditions <;> simp [initializedInstance, hcc, hd]
    have h2 : (initializedInstance inst).name = inst.name := by
      cases hcc : inst.conditions <;> simp [initializedInstance, hcc]
    simp [h1, h2, hring]
  · intro w hring e he
    unfold reconcile at he
    cases hw : w.swiftStorage with
    | none => rw [hw] at he; simp at he
    | some inst =>
      rw [hw] at he
      cases hcc : inst.conditions <;> cases hdel : inst.deletionTimestampIsZero <;>
        simp [initializedInstance, initConditionsTrace, hcc, hdel, hring] at he <;>
        rcases he with rfl | rfl <;> rfl

/-- Witness for C2: the ringless platform state requeues after 5 seconds,
and the config-bundle effect is not an endpoint, policy or workload
effect. -/
theorem reconcile_ring_gate_witness :
    (reconcile ringlessWorld).result = .requeueAfter 5 ∧
    touchesEndpointPolicyOrWorkload
      (Effect.ensureConfigMaps ["alpha-config-data", "alpha-scripts"]) = false :=
  ⟨(reconcile_ring_gate.1 ringlessWorld alphaStorage rfl rfl rfl).1,
   reconcile_ring_gate.2 ringlessWorld rfl _ (by decide)⟩

/-- The readiness-gated tail either leaves state and trace untouched, or,
exactly when the observed ready-replica count equals the requested count,
publishes the device ConfigMap and persists both ready conditions. -/
theorem readinessTail_cases (inst2 : SwiftStorage) (w3 : World) (ready : Int)
    (tr : List Effect) :
    ((readinessTail inst2 w3 ready tr).world = w3 ∧
     (readinessTail inst2 w3 ready tr).trace = tr) ∨
    (ready = inst2.spec.replicas ∧ ∃ d,
      (readinessTail inst2 w3 ready tr).world =
        { w3 with swiftStorage := some { inst2 with conditions := some (markedConds inst2) } } ∧
      (readinessTail inst2 w3 ready tr).trace =
        tr ++ [Effect.deviceConfigMapEnsure d, Effect.statusUpdate (markedConds inst2)]) := by
  unfold readinessTail
  split
  · rename_i hready
    cases hg : getDeviceList w3.pvcs inst2 with
    | none => exact Or.inl ⟨by simp [hg], by simp [hg]⟩
    | some d => exact Or.inr ⟨hready, d, by simp [hg, markedConds], by simp [hg, markedConds]⟩
  · exact Or.inl ⟨rfl, rfl⟩

/-- The only effect of the InitConditions phase is persisting the full
unknown condition set. -/
theorem initConditionsTrace_mem (inst0 : SwiftStorage) (e : Effect)
    (h : e ∈ initConditionsTrace inst0) :
    e = Effect.statusUpdate fullConditionSet := by
  unfold initConditionsTrace at h
  cases hc : inst0.conditions with
  | none => rw [hc] at h; simpa using h
  | some l => rw [hc] at h; simp at h

/-- The only effect the ScaleDownGuard can produce is a spec persist. -/
theorem scaleDownTrace_mem (inst1 : SwiftStorage) (f : Option StatefulSetObj) (e : Effect)
    (h : e ∈ scaleDownTrace inst1 f) : ∃ r, e = Effect.specUpdate r := by
  unfold scaleDownTrace at h
  split at h
  · split at h
    · exact ⟨_, by simpa using h⟩
    · simp at h
  · simp at h

/-- A reconciliation of a stored instance stops at the DeletionGuard, stops
at the ring gate, or runs the phases from EnsureEndpoint on. -/
theorem reconcile_branches (w : World) (inst : SwiftStorage)
    (hw : w.swiftStorage = some inst) :
    reconcile w = { result := .done, world := { w with swiftStorage := some (initializedInstance inst) }, trace := initConditionsTrace inst } ∨
    reconcile w = { result := .requeueAfter 5, world := { w with swiftStorage := some (initializedInstance inst) }, trace := initConditionsTrace inst ++ [Effect.ensureConfigMaps [(initializedInstance inst).name ++ "-config-data", (initializedInstance inst).name ++ "-scripts"]] } ∨
    ((initializedInstance inst).deletionTimestampIsZero = true ∧
     w.ringConfigMapExists = true ∧
     reconcile w = reconcileFromEndpoint (initializedInstance inst)
       { w with swiftStorage := some (initializedInstance inst) }
       (initConditionsTrace inst ++ [Effect.ensureConfigMaps [(initializedInstance inst).name ++ "-config-data", (initializedInstance inst).name ++ "-scripts"]])) := by
  unfold reconcile
  rw [hw]
  simp only []
  split
  · exact Or.inl rfl
  · rename_i h1
    split
    · exact Or.inr (Or.inl rfl)
    · rename_i h2
      exact Or.inr (Or.inr ⟨by revert h1; cases (initializedInstance inst).deletionTimestampIsZero <;> simp,
        by revert h2; cases w.ringConfigMapExists <;> simp, rfl⟩)

/-- The phases from EnsureEndpoint on, written as one readiness-tail call
on the corrected instance, the updated platform state and the accumulated
trace. -/
theorem reconcileFromEndpoint_eq (inst1 : SwiftStorage) (w1 : World) (tr : List Effect) :
    reconcileFromEndpoint inst1 w1 tr =
      readinessTail (scaleDownInstance inst1 w1.statefulSet)
        { w1 with swiftStorage := some (scaleDownInstance inst1 w1.statefulSet),
                  statefulSet := some { specReplicas := (scaleDownInstance inst1 w1.statefulSet).spec.replicas, readyReplicas := readyOf w1.statefulSet } }
        (readyOf w1.statefulSet)
        (((tr ++ [Effect.serviceCreateOrPatch (getStorageService inst1),
            Effect.networkPolicyCreateOrPatch (getStorageNetworkPolicy inst1)]) ++
          scaleDownTrace inst1 w1.statefulSet) ++
          [Effect.statefulSetCreateOrPatch (getStorageStatefulSet (scaleDownInstance inst1 w1.statefulSet))]) := rfl

/-- Every status persist in a reconciliation's trace writes either the
initial full unknown set or the marked set of the MarkReady phase; a device
ConfigMap is only ever published in a reconciliation that reached the
MarkReady phase. -/
theorem reconcile_effect_analysis (w : World) (inst : SwiftStorage)
    (hw : w.swiftStorage = some inst) :
    ∀ e ∈ (reconcile w).trace,
      (∀ conds, e = Effect.statusUpdate conds →
        conds = fullConditionSet ∨ ∃ inst2, conds = markedConds inst2 ∧ readyOutcome w inst2) ∧
      (∀ d, e = Effect.deviceConfigMapEnsure d → ∃ inst2, readyOutcome w inst2) := by
  intro e he
  rcases reconcile_branches w inst hw with hb | hb | ⟨hdel, hring, hb⟩
  · rw [hb] at he
    simp only [] at he
    cases hc : inst.conditions with
    | none =>
      simp [initConditionsTrace, hc] at he
      subst he
      exact ⟨fun conds h => Or.inl (by injection h with h2; exact h2.symm), fun d h => nomatch h⟩
    | some l => simp [initConditionsTrace, hc] at he
  · rw [hb] at he
    simp only [] at he
    cases hc : inst.conditions with
    | none =>
      simp [initConditionsTrace, hc] at he
      rcases he with he | he <;> subst he
      · exact ⟨fun conds h => Or.inl (by injection h with h2; exact h2.symm), fun d h => nomatch h⟩
      · exact ⟨fun conds h => (nomatch h), fun d h => nomatch h⟩
    | some l =>
      simp [initConditionsTrace, hc] at he
      subst he
      exact ⟨fun conds h => (nomatch h), fun d h => nomatch h⟩
  · rw [hb, reconcileFromEndpoint_eq] at he
    rcases readinessTail_cases (scaleDownInstance (initializedInstance inst) ({ w with swiftStorage := some (initializedInstance inst) } : World).statefulSet) _ _ _ with ⟨hwld, htr⟩ | ⟨hready, d0, hwld, htr⟩
    · rw [htr] at he
      simp only [List.append_assoc, List.mem_append, List.mem_cons, List.mem_singleton,
        List.not_mem_nil, or_false] at he
      rcases he with he | he | (he | he) | he | he
      · rw [initConditionsTrace_mem _ _ he]
        exact ⟨fun conds h => Or.inl (by injection h with h2; exact h2.symm), fun d h => nomatch h⟩
      · subst he
        exact ⟨fun conds h => (nomatch h), fun d h => nomatch h⟩
      · subst he
        exact ⟨fun conds h => (nomatch h), fun d h => nomatch h⟩
      · subst he
        exact ⟨fun conds h => (nomatch h), fun d h => nomatch h⟩
      · obtain ⟨r, rfl⟩ := scaleDownTrace_mem _ _ _ he
        exact ⟨fun conds h => (nomatch h), fun d h => nomatch h⟩
      · subst he
        exact ⟨fun conds h => (nomatch h), fun d h => nomatch h⟩
    · have hro : readyOutcome w (scaleDownInstance (initializedInstance inst) ({ w with swiftStorage := some (initializedInstance inst) } : World).statefulSet) := by
        unfold readyOutcome
        rw [hb, reconcileFromEndpoint_eq, hwld]
        refine ⟨rfl, ?_⟩
        simp [hready]
      rw [htr] at he
      simp only [List.append_assoc, List.mem_append, List.mem_cons, List.mem_singleton,
        List.not_mem_nil, or_false] at he
      rcases he with he | he | (he | he) | he | he | he | he
      · rw [initConditionsTrace_mem _ _ he]
        exact ⟨fun conds h => Or.inl (by injection h with h2; exact h2.symm), fun d h => nomatch h⟩
      · subst he
        exact ⟨fun conds h => (nomatch h), fun d h => nomatch h⟩
      · subst he
        exact ⟨fun conds h => (nomatch h), fun d h => nomatch h⟩
      · subst he
        exact ⟨fun conds h => (nomatch h), fun d h => nomatch h⟩
      · obtain ⟨r, rfl⟩ := scaleDownTrace_mem _ _ _ he
        exact ⟨fun conds h => (nomatch h), fun d h => nomatch h⟩
      · subst he
        exact ⟨fun conds h => (nomatch h), fun d h => nomatch h⟩
      · subst he
        exact ⟨fun conds h => (nomatch h), fun d h => ⟨_, hro⟩⟩
      · subst he
        exact ⟨fun conds h => Or.inr ⟨_, by injection h with h2; exact h2.symm, hro⟩,
          fun d h => nomatch h⟩

/-- The initial condition set does not mark Ready true. -/
theorem readyTrue_not_in_full :
    Condition.mk ReadyCondition CondStatus.condTrue ∉ fullConditionSet := by decide

/-- Claim C5: a reconciliation persists a Ready-true condition only when the
final stored workload's ready-replica count equals the stored instance's
requested replica count; whenever those differ, the invocation neither
marks Ready nor publishes the device manifest. -/
theorem reconcile_ready_gating (w : World) (inst : SwiftStorage)
    (hw : w.swiftStorage = some inst) :
    (readyMarkedTrue (reconcile w).trace →
      ∃ instF ss, (reconcile w).world.swiftStorage = some instF ∧
        (reconcile w).world.statefulSet = some ss ∧
        ss.readyReplicas = instF.spec.replicas) ∧
    (∀ (instF : SwiftStorage) (ss : StatefulSetObj),
      (reconcile w).world.swiftStorage = some instF →
      (reconcile w).world.statefulSet = some ss →
      ss.readyReplicas ≠ instF.spec.replicas →
      ¬ readyMarkedTrue (reconcile w).trace ∧
      ∀ d, Effect.deviceConfigMapEnsure d ∉ (reconcile w).trace) := by
  have key : readyMarkedTrue (reconcile w).trace →
      ∃ inst2, readyOutcome w inst2 := by
    rintro ⟨conds, hmem, hR⟩
    rcases (reconcile_effect_analysis w inst hw _ hmem).1 conds rfl with h | ⟨inst2, rfl, hro⟩
    · subst h
      exact absurd hR readyTrue_not_in_full
    · exact ⟨inst2, hro⟩
  constructor
  · intro hmark
    obtain ⟨inst2, hss, hst⟩ := key hmark
    exact ⟨_, _, hss, hst, rfl⟩
  · intro instF ss hssF hstF hne
    constructor
    · intro hmark
      obtain ⟨inst2, hss, hst⟩ := key hmark
      rw [hssF] at hss
      rw [hstF] at hst
      obtain rfl := Option.some_inj.mp hss
      obtain rfl := Option.some_inj.mp hst
      exact hne rfl
    · intro d hd
      obtain ⟨inst2, hss, hst⟩ := (reconcile_effect_analysis w inst hw _ hd).2 d rfl
      rw [hssF] at hss
      rw [hstF] at hst
      obtain rfl := Option.some_inj.mp hss
      obtain rfl := Option.some_inj.mp hst
      exact hne rfl

/-- Witness for C5: with 1 of 2 replicas ready, reconciling `alpha` neither
marks Ready nor publishes a device ConfigMap. -/
theorem reconcile_ready_gating_witness :
    ¬ readyMarkedTrue (reconcile notReadyWorld).trace ∧
    ∀ d, Effect.deviceConfigMapEnsure d ∉ (reconcile notReadyWorld).trace :=
  (reconcile_ready_gating notReadyWorld alphaStorage rfl).2
    { alphaStorage with conditions := some fullConditionSet }
    { specReplicas := 2, readyReplicas := 1 } rfl rfl (by decide)

/-- The applied StatefulSet carries the corrected replica count and the
previously observed ready-replica count. -/
theorem reconcileFromEndpoint_statefulSet (inst1 : SwiftStorage) (w1 : World)
    (tr : List Effect) :
    (reconcileFromEndpoint inst1 w1 tr).world.statefulSet =
      some { specReplicas := (scaleDownInstance inst1 w1.statefulSet).spec.replicas,
             readyReplicas := readyOf w1.statefulSet } := by
  rw [reconcileFromEndpoint_eq, readinessTail_statefulSet]

/-- The ScaleDownGuard never lowers the replica count below the existing
workload's configured count. -/
theorem scaleDownInstance_replicas_ge (inst1 : SwiftStorage) (found : StatefulSetObj) :
    found.specReplicas ≤ (scaleDownInstance inst1 (some found)).spec.replicas := by
  unfold scaleDownInstance
  by_cases hgt : found.specReplicas > inst1.spec.replicas
  · simp [hgt]
  · simp only [if_neg hgt]
    omega

/-- One reconciliation never decreases the configured replica count of an
existing workload. -/
theorem reconcile_ss_mono (w : World) (n : Int) (h : ssSpecReplicas w = some n) :
    ∃ m, ssSpecReplicas (reconcile w).world = some m ∧ n ≤ m := by
  cases hw : w.swiftStorage with
  | none =>
    refine ⟨n, ?_, le_refl n⟩
    unfold reconcile
    rw [hw]
    exact h
  | some inst =>
    rcases reconcile_branches w inst hw with hb | hb | ⟨hdel, hring, hb⟩
    · exact ⟨n, by rw [hb]; exact h, le_refl n⟩
    · exact ⟨n, by rw [hb]; exact h, le_refl n⟩
    · rw [hb]
      refine ⟨(scaleDownInstance (initializedInstance inst) w.statefulSet).spec.replicas, ?_, ?_⟩
      · simp only [ssSpecReplicas]
        rw [reconcileFromEndpoint_statefulSet]
        simp
      · cases hf : w.statefulSet with
        | none => simp only [ssSpecReplicas, hf] at h; simp at h
        | some found =>
          simp only [ssSpecReplicas, hf] at h
          simp at h
          have hge := scaleDownInstance_replicas_ge (initializedInstance inst) found
          omega

/-- A user edit of the requested replica count does not change the live
workload. -/
theorem setRequestedReplicas_statefulSet (w : World) (r : Int) :
    (setRequestedReplicas w r).statefulSet = w.statefulSet := by
  unfold setRequestedReplicas
  cases w.swiftStorage <;> rfl

/-- Across any sequence of reconciliations with arbitrary replica-count
edits in between, the configured replica count of an existing workload
never decreases. -/
theorem runEdits_ss_mono (edits : List Int) (w : World) (n : Int)
    (h : ssSpecReplicas w = some n) :
    ∃ m, ssSpecReplicas (runEdits w edits) = some m ∧ n ≤ m := by
  induction edits generalizing w n with
  | nil => exact ⟨n, h, le_refl n⟩
  | cons r rest ih =>
    have h1 : ssSpecReplicas (setRequestedReplicas w r) = some n := by
      rw [ssSpecReplicas, setRequestedReplicas_statefulSet]
      exact h
    obtain ⟨m1, hm1, hnm1⟩ := reconcile_ss_mono (setRequestedReplicas w r) n h1
    obtain ⟨m2, hm2, hm12⟩ := ih _ _ hm1
    exact ⟨m2, hm2, le_trans hnm1 hm12⟩

/-- When the existing workload is larger than the request, the guard sets
the request to the existing count. -/
theorem scaleDownInstance_gt_replicas (inst1 : SwiftStorage) (found : StatefulSetObj)
    (hgt : found.specReplicas > inst1.spec.replicas) :
    (scaleDownInstance inst1 (some found)).spec.replicas = found.specReplicas := by
  simp [scaleDownInstance, hgt]

/-- When the existing workload is larger than the request, the phases from
EnsureEndpoint on persist the raised spec immediately before applying the
workload with the raised count. -/
theorem reconcileFromEndpoint_rewrite (inst1 : SwiftStorage) (w1 : World)
    (tr : List Effect) (found : StatefulSetObj) (hf : w1.statefulSet = some found)
    (hgt : found.specReplicas > inst1.spec.replicas) :
    ∃ post inst2,
      (reconcileFromEndpoint inst1 w1 tr).trace =
        (tr ++ [Effect.serviceCreateOrPatch (getStorageService inst1),
                Effect.networkPolicyCreateOrPatch (getStorageNetworkPolicy inst1)]) ++
        [Effect.specUpdate found.specReplicas,
         Effect.statefulSetCreateOrPatch (getStorageStatefulSet inst2)] ++ post ∧
      inst2.spec.replicas = found.specReplicas ∧
      ssSpecReplicas (reconcileFromEndpoint inst1 w1 tr).world = some found.specReplicas := by
  rw [reconcileFromEndpoint_eq, hf]
  obtain ⟨suf, htr, hssd⟩ := readinessTail_shape _ _ _ _
  refine ⟨suf, scaleDownInstance inst1 (some found), ?_, scaleDownInstance_gt_replicas inst1 found hgt, ?_⟩
  · rw [htr]
    simp [scaleDownTrace, hgt]
  · simp only [ssSpecReplicas]
    rw [readinessTail_statefulSet]
    simp [scaleDownInstance_gt_replicas inst1 found hgt]

/-- Claim C1: one reconciliation never lowers an existing workload's
configured replica count; across any sequence of reconciliations with
arbitrary requested-replica edits in between, the count is non-decreasing;
and when the existing count strictly exceeds the request, the reconciliation
persists the raised spec immediately before applying the workload with the
raised count. -/
theorem reconcile_replicas_monotonic :
    (∀ (w : World) (n : Int), ssSpecReplicas w = some n →
      ∃ m, ssSpecReplicas (reconcile w).world = some m ∧ n ≤ m) ∧
    (∀ (w : World) (edits : List Int) (n : Int), ssSpecReplicas w = some n →
      ∃ m, ssSpecReplicas (runEdits w edits) = some m ∧ n ≤ m) ∧
    (∀ (w : World) (inst : SwiftStorage) (found : StatefulSetObj),
      w.swiftStorage = some inst → w.statefulSet = some found →
      inst.deletionTimestampIsZero = true → w.ringConfigMapExists = true →
      found.specReplicas > inst.spec.replicas →
      ∃ pre post inst2,
        (reconcile w).trace = pre ++ [Effect.specUpdate found.specReplicas,
          Effect.statefulSetCreateOrPatch (getStorageStatefulSet inst2)] ++ post ∧
        inst2.spec.replicas = found.specReplicas ∧
        ssSpecReplicas (reconcile w).world = some found.specReplicas) := by
  refine ⟨reconcile_ss_mono, fun w edits n h => runEdits_ss_mono edits w n h, ?_⟩
  intro w inst found hw hf hdel hring hgt
  have hdel1 : ¬ ((initializedInstance inst).deletionTimestampIsZero = false) := by
    rw [initializedInstance_deletion, hdel]; simp
  have hring1 : ¬ (w.ringConfigMapExists = false) := by rw [hring]; simp
  have hb : reconcile w = reconcileFromEndpoint (initializedInstance inst)
      { w with swiftStorage := some (initializedInstance inst) }
      (initConditionsTrace inst ++
        [Effect.ensureConfigMaps [(initializedInstance inst).name ++ "-config-data",
          (initializedInstance inst).name ++ "-scripts"]]) := by
    unfold reconcile
    rw [hw]
    simp only []
    rw [if_neg hdel1, if_neg hring1]
  rw [hb]
  obtain ⟨post, inst2, htr, hrep, hss⟩ :=
    reconcileFromEndpoint_rewrite (initializedInstance inst)
      { w with swiftStorage := some (initializedInstance inst) } _ found hf
      (by rw [initializedInstance_spec]; exact hgt)
  exact ⟨_, post, inst2, htr, hrep, hss⟩

/-- Witness for C1: a 3-replica workload with a 1-replica request keeps at
least 3 replicas after one reconciliation and after a sequence with further
shrink edits, and the reconciliation persists the raised spec right before
the workload apply. -/
theorem reconcile_replicas_monotonic_witness :
    (∃ m, ssSpecReplicas (reconcile shrinkWorld).world = some m ∧ 3 ≤ m) ∧
    (∃ m, ssSpecReplicas (runEdits shrinkWorld [1, 2]) = some m ∧ 3 ≤ m) ∧
    (∃ pre post inst2,
      (reconcile shrinkWorld).trace = pre ++ [Effect.specUpdate 3,
        Effect.statefulSetCreateOrPatch (getStorageStatefulSet inst2)] ++ post ∧
      inst2.spec.replicas = 3 ∧
      ssSpecReplicas (reconcile shrinkWorld).world = some 3) :=
  ⟨reconcile_replicas_monotonic.1 shrinkWorld 3 rfl,
   reconcile_replicas_monotonic.2.1 shrinkWorld [1, 2] 3 rfl,
   reconcile_replicas_monotonic.2.2 shrinkWorld shrinkStorage { specReplicas := 3, readyReplicas := 2 }
     rfl rfl rfl rfl (by decide)⟩

end SwiftOp
